import Mathlib

/-!
Verification development for the isometric-RPG repository.

Shallow embedding conventions:
* TypeScript `number` values that the verified code treats as integers
  (timestamps, coordinates, quantities, gold, item values) are modelled as `Int`;
  collection sizes are `Nat`.
* The JavaScript built-in `Map` is modelled as an insertion-ordered association
  list (`List (String × α)`): `set` replaces in place or appends, `delete`
  removes the entry, iteration follows insertion order, exactly as in JS.
* `Date.now()` and the random save-id generator are impure; they are passed in
  as explicit `now` / id parameters.
* `JSON.stringify`/`JSON.parse` of the plain-data records used here round-trip
  the data unchanged, so serialization is modelled by the parsed record itself
  (`MementoJson`); a failed `JSON.parse` is a `none` input.
* `Math.floor` on a quotient of integers is `Int.fdiv`.
-/

namespace IsoRPG

/-- JS `Map.prototype.set`: replace the value of an existing key in place,
otherwise append the binding at the end (insertion order). -/
def mapSet {α : Type} (m : List (String × α)) (k : String) (v : α) : List (String × α) :=
  match m with
  | [] => [(k, v)]
  | (k₁, v₁) :: rest => if k₁ = k then (k, v) :: rest else (k₁, v₁) :: mapSet rest k v

/-- JS `Map.prototype.delete`: remove the binding of `k` (keys are unique). -/
def mapDelete {α : Type} (m : List (String × α)) (k : String) : List (String × α) :=
  match m with
  | [] => []
  | (k₁, v₁) :: rest => if k₁ = k then rest else (k₁, v₁) :: mapDelete rest k

/-- JS `Map.prototype.get`. -/
def mapGet {α : Type} (m : List (String × α)) (k : String) : Option α :=
  match m with
  | [] => none
  | (k₁, v₁) :: rest => if k₁ = k then some v₁ else mapGet rest k

/-- JS `Map.prototype.has`. -/
def mapHas {α : Type} (m : List (String × α)) (k : String) : Bool :=
  match m with
  | [] => false
  | (k₁, _) :: rest => if k₁ = k then true else mapHas rest k

/-- JS `Map.prototype.size`. -/
def mapSize {α : Type} (m : List (String × α)) : Nat := m.length

/-- The keys of a JS map, in insertion order. -/
def mapKeys {α : Type} (m : List (String × α)) : List String := m.map Prod.fst

/-! ## Game-state data model (`GameMemento.ts` interfaces) -/

/-- `PlayerState.stats`. -/
structure PlayerStats where
  strength : Int
  agility : Int
  intelligence : Int
  vitality : Int
deriving DecidableEq, Inhabited

/-- `EquipmentState` (all slots optional). -/
structure EquipmentState where
  weapon : Option String
  shield : Option String
  helmet : Option String
  chest : Option String
  gloves : Option String
  boots : Option String
  accessory1 : Option String
  accessory2 : Option String
deriving DecidableEq, Inhabited

/-- `SkillState`. -/
structure SkillState where
  id : String
  name : String
  level : Int
  experience : Int
  cooldown : Int
deriving DecidableEq, Inhabited

/-- `PositionState`. -/
structure PositionState where
  x : Int
  y : Int
  z : Int
  timestamp : Int
deriving DecidableEq, Inhabited

/-- `PlayerState`. -/
structure PlayerState where
  id : String
  name : String
  characterClass : String
  position : PositionState
  direction : String
  level : Int
  experience : Int
  health : Int
  maxHealth : Int
  mana : Int
  maxMana : Int
  stats : PlayerStats
  equipment : EquipmentState
  skills : List SkillState
  playTime : Int
  lastSaveTime : Int
deriving DecidableEq, Inhabited

/-- `TileState`; the open-ended `properties` bag is modelled as string pairs. -/
structure TileState where
  type : String
  x : Int
  y : Int
  z : Int
  walkable : Bool
  movementCost : Int
  elevation : Int
  properties : List (String × String)
deriving DecidableEq, Inhabited

/-- `MapState`. -/
structure MapState where
  id : String
  name : String
  width : Int
  height : Int
  theme : String
  tiles : List (List TileState)
  discoveredAreas : List (List Bool)
  visitedPositions : List PositionState
  currentLayer : Int
deriving DecidableEq, Inhabited

/-- `ItemEnhancementState`. -/
structure ItemEnhancementState where
  enchantment : Option (String × Int)
  masterwork : Option Bool
  legendary : Option String
deriving DecidableEq, Inhabited

/-- `ItemInstanceState`. -/
structure ItemInstanceState where
  uniqueId : String
  itemId : String
  quantity : Int
  enhancements : Option ItemEnhancementState
  durability : Option Int
  maxDurability : Option Int
  acquiredAt : Int
deriving DecidableEq, Inhabited

/-- `InventoryState`. -/
structure InventoryState where
  items : List ItemInstanceState
  gold : Int
  maxCapacity : Int
  currentCapacity : Int
deriving DecidableEq, Inhabited

/-- `GameSettings.audio`. -/
structure AudioSettings where
  masterVolume : Int
  musicVolume : Int
  sfxVolume : Int
  voiceVolume : Int
deriving DecidableEq, Inhabited

/-- `GameSettings.graphics`. -/
structure GraphicsSettings where
  resolution : String
  fullscreen : Bool
  vsync : Bool
  quality : String
deriving DecidableEq, Inhabited

/-- `GameSettings.controls`. -/
structure ControlSettings where
  keyBindings : List (String × String)
  mouseSensitivity : Int
  invertY : Bool
deriving DecidableEq, Inhabited

/-- `GameSettings.gameplay`. -/
structure GameplaySettings where
  difficulty : String
  autoSave : Bool
  autoSaveInterval : Int
  showTooltips : Bool
  showMinimap : Bool
deriving DecidableEq, Inhabited

/-- `GameSettings`. -/
structure GameSettings where
  audio : AudioSettings
  graphics : GraphicsSettings
  controls : ControlSettings
  gameplay : GameplaySettings
deriving DecidableEq, Inhabited

/-- `GameStatistics`. -/
structure GameStatistics where
  totalPlayTime : Int
  sessionsPlayed : Int
  itemsCollected : Int
  enemiesDefeated : Int
  questsCompleted : Int
  areasExplored : Int
  goldEarned : Int
  goldSpent : Int
  deaths : Int
  savesCount : Int
  lastSaveTime : Int
deriving DecidableEq, Inhabited

/-- `QuestObjectiveState`. -/
structure QuestObjectiveState where
  id : String
  description : String
  current : Int
  required : Int
  completed : Bool
deriving DecidableEq, Inhabited

/-- `QuestRewardState`. -/
structure QuestRewardState where
  experience : Int
  gold : Int
  items : List String
  reputation : Option (List (String × Int))
deriving DecidableEq, Inhabited

/-- `ActiveQuestState`. -/
structure ActiveQuestState where
  id : String
  name : String
  description : String
  objectives : List QuestObjectiveState
  rewards : QuestRewardState
  timeLimit : Option Int
  startedAt : Int
  progress : Int
deriving DecidableEq, Inhabited

/-- `QuestLogEntry`; the action literal union is modelled as a string. -/
structure QuestLogEntry where
  questId : String
  action : String
  timestamp : Int
  details : String
deriving DecidableEq, Inhabited

/-- `QuestState`. -/
structure QuestState where
  activeQuests : List ActiveQuestState
  completedQuests : List String
  failedQuests : List String
  questLog : List QuestLogEntry
deriving DecidableEq, Inhabited

/-- `GameState`. -/
structure GameState where
  player : PlayerState
  map : MapState
  inventory : InventoryState
  gameSettings : GameSettings
  statistics : GameStatistics
  quests : QuestState
  timestamp : Int
deriving DecidableEq, Inhabited

/-- `MementoMetadata`. -/
structure MementoMetadata where
  id : String
  timestamp : Int
  version : String
  saveName : String
  playerName : String
  characterClass : String
  playTime : Int
  level : Int
  location : String
  description : String
deriving DecidableEq, Inhabited

/-! ## GameMemento -/

/-- The `GameMemento` class: id, timestamp, version plus private state/metadata. -/
structure GameMemento where
  id : String
  timestamp : Int
  version : String
  state : GameState
  metadata : MementoMetadata
deriving DecidableEq, Inhabited

/-- The `GameMemento` constructor.  `Date.now()` is the explicit `now`
parameter.  Note that the constructor ignores any timestamp carried by its
arguments: it stamps the memento — and the `timestamp` fields of the copied
state and metadata — with `now`. -/
def GameMemento.make (id : String) (state : GameState) (metadata : MementoMetadata)
    (version : String) (now : Int) : GameMemento :=
  { id := id
    timestamp := now
    version := version
    state := { state with timestamp := now }
    metadata := { metadata with timestamp := now } }

/-- The parsed form of the JSON string produced by `GameMemento.toJSON`.
`JSON.stringify` followed by `JSON.parse` is the identity on these plain-data
records, so the serialized string is modelled by the record itself. -/
structure MementoJson where
  id : String
  timestamp : Int
  version : String
  state : GameState
  metadata : MementoMetadata
deriving DecidableEq, Inhabited

/-- `GameMemento.toJSON`: serialize the five fields into one JSON object. -/
def GameMemento.toJSON (m : GameMemento) : MementoJson :=
  { id := m.id
    timestamp := m.timestamp
    version := m.version
    state := m.state
    metadata := m.metadata }

/-- `GameMemento.fromJSON`: parse and rebuild through the constructor.  Only
`data.id`, `data.state`, `data.metadata` and `data.version` are passed on; the
constructor re-stamps the result at the current time `now`. -/
def GameMemento.fromJSON (data : MementoJson) (now : Int) : GameMemento :=
  GameMemento.make data.id data.state data.metadata data.version now

/-- `GameMemento.isValid`.  In the typed embedding the object fields
(state, metadata, player, map, inventory) are always present, so their JS
truthiness checks hold; string truthiness is non-emptiness. -/
def GameMemento.isValid (m : GameMemento) : Bool :=
  m.id ≠ "" && m.timestamp > 0 && m.version ≠ ""

/-- `GameMemento.isCompatible`: exact version-string equality. -/
def GameMemento.isCompatible (m : GameMemento) (currentVersion : String) : Bool :=
  m.version = currentVersion

/-! ## Player and Map entities (the slices used by the commands and the
memento subsystem) -/

/-- `PositionComponent`: the x/y/z coordinates held by the component. -/
structure PositionComponent where
  x : Int
  y : Int
  z : Int
deriving DecidableEq, Inhabited

/-- The current animation state of an `AnimationComponent`
(`currentState.type` and `currentState.direction`). -/
structure AnimationState where
  type : String
  direction : String
deriving DecidableEq, Inhabited

/-- The `Player` entity: name, character class (its `type` string), and the
optional Position and Animation components the movement code reaches through.
`Player` defines no `level` property, so `player.level` is `undefined`. -/
structure Player where
  name : String
  characterClass : String
  position : Option PositionComponent
  animation : Option AnimationState
deriving DecidableEq, Inhabited

/-- `Player.getX`: `this.position?.x ?? 0`. -/
def Player.getX (p : Player) : Int :=
  match p.position with
  | some pos => pos.x
  | none => 0

/-- `Player.getY`: `this.position?.y ?? 0`. -/
def Player.getY (p : Player) : Int :=
  match p.position with
  | some pos => pos.y
  | none => 0

/-- `Player.getZ`: `this.position?.z ?? 0`. -/
def Player.getZ (p : Player) : Int :=
  match p.position with
  | some pos => pos.z
  | none => 0

/-- `Player.setPosition`: `this.position?.setPosition(x, y, z)` — a no-op when
the Position component is absent. -/
def Player.setPosition (p : Player) (x y z : Int) : Player :=
  { p with position := p.position.map (fun _ => { x := x, y := y, z := z }) }

/-- `Player.setDirection`: keeps the current animation type, changes the
direction (no-op without an Animation component). -/
def Player.setDirection (p : Player) (direction : String) : Player :=
  { p with animation := p.animation.map (fun a => { a with direction := direction }) }

/-- `Player.setAnimationType`: keeps the current direction, changes the
animation type (no-op without an Animation component). -/
def Player.setAnimationType (p : Player) (type : String) : Player :=
  { p with animation := p.animation.map (fun a => { a with type := type }) }

/-- `Player.getCurrentAnimationType`: `this.animation?.animationType ?? 'idle'`. -/
def Player.getCurrentAnimationType (p : Player) : String :=
  match p.animation with
  | some a => a.type
  | none => "idle"

/-- The tile data the movement checks read: `tile.isWalkable()` and
`tile.getElevation()`. -/
structure MapTile where
  walkable : Bool
  elevation : Int
deriving DecidableEq, Inhabited

/-- The `Map` entity as the movement code consumes it: its bounds, its name,
and `getTile` — the composite tree walk abstracted as a per-cell lookup. -/
structure GameMap where
  name : String
  width : Int
  height : Int
  getTile : Int → Int → Option MapTile

/-- `Map.isWalkable`: `const tile = this.getTile(x, y); return tile ? tile.isWalkable() : false`. -/
def GameMap.isWalkable (m : GameMap) (x y : Int) : Bool :=
  match m.getTile x y with
  | some tile => tile.walkable
  | none => false

/-- `Map.getElevation`: `const tile = this.getTile(x, y); return tile ? tile.getElevation() : 0`. -/
def GameMap.getElevation (m : GameMap) (x y : Int) : Int :=
  match m.getTile x y with
  | some tile => tile.elevation
  | none => 0

/-! ## MovementCommand -/

/-- The mutable state of a `MovementCommand`: the configured delta and
direction plus the `previousPosition` slot written by `execute`. -/
structure MovementCommand where
  deltaX : Int
  deltaY : Int
  deltaZ : Int
  direction : String
  previousPosition : Option PositionComponent
deriving DecidableEq, Inhabited

/-- `MovementCommand.isValidPosition`: bounds check, walkability check, then
elevation difference (|target − current| must be ≤ 1); the `z` argument is
unused by the source as well. -/
def MovementCommand.isValidPosition (p : Player) (map : GameMap) (x y _z : Int) : Bool :=
  if x < 0 || x ≥ map.width || y < 0 || y ≥ map.height then false
  else if !(map.isWalkable x y) then false
  else
    let currentElevation := map.getElevation p.getX p.getY
    let targetElevation := map.getElevation x y
    let elevationDiff := |targetElevation - currentElevation|
    if elevationDiff > 1 then false
    else true

/-- `MovementCommand.canExecute`: validity of the cell one delta away. -/
def MovementCommand.canExecute (cmd : MovementCommand) (p : Player) (map : GameMap) : Bool :=
  MovementCommand.isValidPosition p map (p.getX + cmd.deltaX) (p.getY + cmd.deltaY)
    (p.getZ + cmd.deltaZ)

/-- `MovementCommand.execute`, with the mutations on the command and the
player threaded explicitly: returns the success flag and the updated
command/player.  On the early `canExecute` failure nothing is written; after
that the previous position is recorded, the (re-checked) move is applied, the
direction is set and the animation type becomes "walk". -/
def MovementCommand.execute (cmd : MovementCommand) (p : Player) (map : GameMap) :
    Bool × MovementCommand × Player :=
  if !(cmd.canExecute p map) then (false, cmd, p)
  else
    let cmd₁ := { cmd with previousPosition := some { x := p.getX, y := p.getY, z := p.getZ } }
    let newX := p.getX + cmd.deltaX
    let newY := p.getY + cmd.deltaY
    let newZ := p.getZ + cmd.deltaZ
    if !(MovementCommand.isValidPosition p map newX newY newZ) then (false, cmd₁, p)
    else
      let p₁ := ((p.setPosition newX newY newZ).setDirection cmd.direction).setAnimationType "walk"
      (true, cmd₁, p₁)

/-- `MovementCommand.undo`: fails when no previous position was stored;
otherwise restores it and resets the animation type to "idle". -/
def MovementCommand.undo (cmd : MovementCommand) (p : Player) : Bool × Player :=
  match cmd.previousPosition with
  | none => (false, p)
  | some prev => (true, (p.setPosition prev.x prev.y prev.z).setAnimationType "idle")

/-! ## GameOriginator and GameCaretaker -/

/-- `GameOriginator`: the held current state and the fixed version string. -/
structure GameOriginator where
  currentState : Option GameState
  version : String
deriving DecidableEq, Inhabited

/-- `GameOriginator.createMemento` — `none` models the thrown
`'No current game state to save'`.  `Date.now()` is `now` and the random
`generateSaveId()` result is the `genId` parameter.  `player.level` does not
exist on `Player`, so `player.level || 1` evaluates to 1. -/
def GameOriginator.createMemento (o : GameOriginator) (saveName : String) (player : Player)
    (map : GameMap) (genId : String) (now : Int) : Option GameMemento :=
  match o.currentState with
  | none => none
  | some state =>
      let metadata : MementoMetadata :=
        { id := genId
          timestamp := now
          version := o.version
          saveName := saveName
          playerName := player.name
          characterClass := player.characterClass
          playTime := state.statistics.totalPlayTime
          level := 1
          location := map.name ++ " (" ++ toString player.getX ++ ", " ++ toString player.getY ++ ")"
          description := "Level 1 " ++ player.characterClass ++ " - " ++ saveName }
      some (GameMemento.make metadata.id state metadata o.version now)

/-- `GameCaretaker`: the save map, its originator, and the configuration and
auto-save clock fields. -/
structure GameCaretaker where
  mementos : List (String × GameMemento)
  originator : GameOriginator
  maxSaves : Nat
  autoSaveInterval : Int
  lastAutoSave : Int
deriving DecidableEq, Inhabited

/-- Ordering used by `cleanupOldSaves`: the JS comparator
`(a, b) => a.timestamp - b.timestamp` sorts entries by ascending timestamp
(stably). -/
def saveOrder (a b : String × GameMemento) : Prop :=
  a.2.timestamp ≤ b.2.timestamp

instance : DecidableRel saveOrder := fun a b => Int.decLe a.2.timestamp b.2.timestamp

/-- `GameCaretaker.cleanupOldSaves`: when over the limit, sort all entries by
ascending timestamp and delete the oldest `count - maxSaves` ids. -/
def GameCaretaker.cleanupOldSaves (c : GameCaretaker) : GameCaretaker :=
  if c.mementos.length ≤ c.maxSaves then c
  else
    let saves := c.mementos.insertionSort saveOrder
    let toRemove := saves.take (saves.length - c.maxSaves)
    { c with mementos := toRemove.foldl (fun ms e => mapDelete ms e.1) c.mementos }

/-- `GameCaretaker.saveGame`: create a memento through the originator, store
it under its id, then prune; `none` models the originator's thrown error. -/
def GameCaretaker.saveGame (c : GameCaretaker) (saveName : String) (player : Player)
    (map : GameMap) (genId : String) (now : Int) : Option (GameMemento × GameCaretaker) :=
  match c.originator.createMemento saveName player map genId now with
  | none => none
  | some m =>
      some (m, GameCaretaker.cleanupOldSaves { c with mementos := mapSet c.mementos m.id m })

/-- `GameCaretaker.autoSave`: a throttled save.  Returns `some (result, state)`
where `result = none` models the `null` return of a skipped save; the outer
`none` models the originator's thrown error. -/
def GameCaretaker.autoSave (c : GameCaretaker) (player : Player) (map : GameMap)
    (genId : String) (now : Int) : Option (Option GameMemento × GameCaretaker) :=
  if now - c.lastAutoSave < c.autoSaveInterval then some (none, c)
  else
    match GameCaretaker.saveGame { c with lastAutoSave := now } "Auto Save" player map genId now with
    | none => none
    | some (m, c₁) => some (some m, c₁)

/-- `GameCaretaker.getSaveCount`. -/
def GameCaretaker.getSaveCount (c : GameCaretaker) : Nat := mapSize c.mementos

/-- `GameCaretaker.importSaves`.  The input models `JSON.parse` of the outer
string: `none` is an outer parse failure, and each array entry is `none` when
the individual save fails to parse, or the parsed memento object otherwise.
`Date.now()` during the synchronous call is `now`. -/
def GameCaretaker.importSaves (c : GameCaretaker) (input : Option (List (Option MementoJson)))
    (now : Int) : GameCaretaker :=
  match input with
  | none => { c with mementos := [] }
  | some saves =>
      GameCaretaker.cleanupOldSaves
        { c with
          mementos := saves.foldl (fun ms entry =>
            match entry with
            | none => ms
            | some data =>
                let memento := GameMemento.fromJSON data now
                if memento.isValid then mapSet ms memento.id memento else ms) c.mementos }

/-! ## Item value objects -/

/-- `ItemProperties` (and the immutable `Item` class, whose constructor just
copies these fields). -/
structure ItemProperties where
  id : String
  name : String
  description : String
  type : String
  rarity : String
  slot : String
  weight : Int
  value : Int
  stackable : Bool
  maxStack : Int
  icon : String
  spriteKey : String
deriving DecidableEq, Inhabited

/-- `Item.getDisplayName`: name plus rarity tag (the rarity-colour table is
computed but unused by the returned string). -/
def ItemProperties.getDisplayName (i : ItemProperties) : String :=
  i.name ++ " (" ++ i.rarity ++ ")"

/-- `ItemInstance`: an item reference, a quantity and a unique instance id. -/
structure ItemInstance where
  item : ItemProperties
  quantity : Int
  uniqueId : String
deriving DecidableEq, Inhabited

/-! ## InventoryComponent -/

/-- The legacy `InventoryItem` record kept in `_items`. -/
structure InventoryItem where
  id : String
  name : String
  type : String
  quantity : Int
  maxStack : Int
deriving DecidableEq, Inhabited

/-- An inventory event published on the bus (`eventType` plus message;
payload fields beyond these are not needed by the claims). -/
structure InventoryEvent where
  eventType : String
  message : String
deriving DecidableEq, Inhabited

/-- `InventoryComponent`: the legacy `_items` map, the new `_newItems` map,
the capacity bound and the gold counter. -/
structure InventoryComponent where
  items : List (String × InventoryItem)
  newItems : List (String × ItemInstance)
  maxCapacity : Nat
  gold : Int
deriving DecidableEq, Inhabited

/-- The `InventoryComponent` constructor (`maxCapacity` defaults to 20 at
call sites). -/
def InventoryComponent.create (maxCapacity : Nat) : InventoryComponent :=
  { items := [], newItems := [], maxCapacity := maxCapacity, gold := 0 }

/-- `currentCapacity`: `this._items.size + this._newItems.size`. -/
def InventoryComponent.currentCapacity (inv : InventoryComponent) : Nat :=
  mapSize inv.items + mapSize inv.newItems

/-- `isFull`: `this.currentCapacity >= this._maxCapacity`. -/
def InventoryComponent.isFull (inv : InventoryComponent) : Bool :=
  inv.currentCapacity ≥ inv.maxCapacity

/-- `findItemByItemId`: first instance in insertion order whose item id
matches. -/
def InventoryComponent.findItemByItemId (inv : InventoryComponent) (itemId : String) :
    Option ItemInstance :=
  (inv.newItems.map Prod.snd).find? (fun inst => inst.item.id == itemId)

/-- `updateItemQuantity`: delete the stack at quantity ≤ 0, otherwise replace
the instance with the new quantity. -/
def InventoryComponent.updateItemQuantity (inv : InventoryComponent) (uniqueId : String)
    (newQuantity : Int) : InventoryComponent :=
  match mapGet inv.newItems uniqueId with
  | none => inv
  | some inst =>
      if newQuantity ≤ 0 then { inv with newItems := mapDelete inv.newItems uniqueId }
      else { inv with newItems := mapSet inv.newItems uniqueId { inst with quantity := newQuantity } }

/-- `addItemInstance`: reject when full unless the instance's uniqueId is
already a key; merge into a stackable match when the combined quantity fits;
otherwise add a new slot.  Returns the flag, the new inventory and the emitted
events. -/
def InventoryComponent.addItemInstance (inv : InventoryComponent) (itemInstance : ItemInstance) :
    Bool × InventoryComponent × List InventoryEvent :=
  if inv.isFull && !(mapHas inv.newItems itemInstance.uniqueId) then
    (false, inv, [{ eventType := "item_added", message := "Inventory is full" }])
  else
    let addNew : Bool × InventoryComponent × List InventoryEvent :=
      (true, { inv with newItems := mapSet inv.newItems itemInstance.uniqueId itemInstance },
        [{ eventType := "item_added"
           message := "Added " ++ toString itemInstance.quantity ++ " " ++ itemInstance.item.name }])
    match inv.findItemByItemId itemInstance.item.id with
    | some existingItem =>
        if itemInstance.item.stackable &&
            existingItem.quantity + itemInstance.quantity ≤ itemInstance.item.maxStack then
          (true, inv.updateItemQuantity existingItem.uniqueId
              (existingItem.quantity + itemInstance.quantity),
            [{ eventType := "item_added"
               message := "Added " ++ toString itemInstance.quantity ++ " " ++
                 itemInstance.item.name ++ " to existing stack" }])
        else addNew
    | none => addNew

/-- Legacy `addItem` on `_items`.  Note the source returns `false` when a
stackable match exists but the combined quantity exceeds its maxStack. -/
def InventoryComponent.addItem (inv : InventoryComponent) (item : InventoryItem) :
    Bool × InventoryComponent :=
  if inv.isFull && !(mapHas inv.items item.id) then (false, inv)
  else
    match mapGet inv.items item.id with
    | some existingItem =>
        let newQuantity := existingItem.quantity + item.quantity
        if newQuantity ≤ existingItem.maxStack then
          (true, { inv with items := mapSet inv.items item.id { existingItem with quantity := newQuantity } })
        else (false, inv)
    | none => (true, { inv with items := mapSet inv.items item.id item })

/-- Legacy `removeItem` on `_items`. -/
def InventoryComponent.removeItem (inv : InventoryComponent) (itemId : String) (quantity : Int) :
    Bool × InventoryComponent :=
  match mapGet inv.items itemId with
  | none => (false, inv)
  | some item =>
      if item.quantity ≤ quantity then (true, { inv with items := mapDelete inv.items itemId })
      else (true, { inv with items := mapSet inv.items itemId { item with quantity := item.quantity - quantity } })

/-- `removeItemInstance` on `_newItems`. -/
def InventoryComponent.removeItemInstance (inv : InventoryComponent) (uniqueId : String)
    (quantity : Int) : Bool × InventoryComponent × List InventoryEvent :=
  match mapGet inv.newItems uniqueId with
  | none => (false, inv, [])
  | some itemInstance =>
      if itemInstance.quantity ≤ quantity then
        (true, { inv with newItems := mapDelete inv.newItems uniqueId },
          [{ eventType := "item_removed", message := "Removed all " ++ itemInstance.item.name }])
      else
        (true, inv.updateItemQuantity uniqueId (itemInstance.quantity - quantity),
          [{ eventType := "item_removed"
             message := "Removed " ++ toString quantity ++ " " ++ itemInstance.item.name }])

/-- `removeItemById`: remove from the first stack with the given item id. -/
def InventoryComponent.removeItemById (inv : InventoryComponent) (itemId : String)
    (quantity : Int) : Bool × InventoryComponent × List InventoryEvent :=
  match inv.findItemByItemId itemId with
  | none => (false, inv, [])
  | some itemInstance => inv.removeItemInstance itemInstance.uniqueId quantity

/-- `addGold`: `this._gold += Math.max(0, amount)`, always emitting a
`gold_changed` event. -/
def InventoryComponent.addGold (inv : InventoryComponent) (amount : Int) :
    InventoryComponent × List InventoryEvent :=
  ({ inv with gold := inv.gold + max 0 amount },
    [{ eventType := "gold_changed", message := "Added " ++ toString amount ++ " gold" }])

/-- `removeGold`: subtract only when the balance covers the amount. -/
def InventoryComponent.removeGold (inv : InventoryComponent) (amount : Int) :
    Bool × InventoryComponent × List InventoryEvent :=
  if inv.gold ≥ amount then
    (true, { inv with gold := inv.gold - amount },
      [{ eventType := "gold_changed", message := "Removed " ++ toString amount ++ " gold" }])
  else (false, inv, [])

/-- `clear`: empties `_items` and zeroes the gold (the source leaves
`_newItems` untouched). -/
def InventoryComponent.clear (inv : InventoryComponent) : InventoryComponent :=
  { inv with items := [], gold := 0 }

/-- The mutating operations of `InventoryComponent`, for stating invariants
over arbitrary call sequences. -/
inductive InvOp where
  | addItem (item : InventoryItem)
  | addItemInstance (itemInstance : ItemInstance)
  | removeItem (itemId : String) (quantity : Int)
  | removeItemInstance (uniqueId : String) (quantity : Int)
  | removeItemById (itemId : String) (quantity : Int)
  | addGold (amount : Int)
  | removeGold (amount : Int)
  | clear
deriving DecidableEq, Inhabited

/-- Apply one inventory operation (discarding the returned flag/events). -/
def InventoryComponent.applyOp (inv : InventoryComponent) (op : InvOp) : InventoryComponent :=
  match op with
  | InvOp.addItem item => (inv.addItem item).2
  | InvOp.addItemInstance itemInstance => (inv.addItemInstance itemInstance).2.1
  | InvOp.removeItem itemId quantity => (inv.removeItem itemId quantity).2
  | InvOp.removeItemInstance uniqueId quantity => (inv.removeItemInstance uniqueId quantity).2.1
  | InvOp.removeItemById itemId quantity => (inv.removeItemById itemId quantity).2.1
  | InvOp.addGold amount => (inv.addGold amount).1
  | InvOp.removeGold amount => (inv.removeGold amount).2.1
  | InvOp.clear => inv.clear

/-- Apply a sequence of inventory operations. -/
def InventoryComponent.applyOps (inv : InventoryComponent) (ops : List InvOp) : InventoryComponent :=
  ops.foldl InventoryComponent.applyOp inv

/-! ## Item decorators -/

/-- The result of the decorator layer.  Every concrete decorator class stores
a plain `Item` (`protected item: Item`), so a wrapped value is always one
decorator around a base item; `base` is an undecorated item. -/
inductive EnhancedItem where
  | base (item : ItemProperties)
  | enchanted (item : ItemProperties) (enchantmentType : String) (enchantmentLevel : Int)
  | durable (item : ItemProperties) (currentDurability : Int) (maxDurability : Int)
  | masterwork (item : ItemProperties)
  | legendary (item : ItemProperties) (legendaryEffect : String)
deriving DecidableEq, Inhabited

/-- `getEnchantmentTypeMultiplier`, scaled by 10 to stay in integers: the
source table is fire 1.5, ice 1.3, lightning 1.4, poison 1.2, holy 1.6,
dark 1.5, strength/agility/intelligence 1.0, default 1.0. -/
def enchantmentTypeMultiplierTimes10 (enchantmentType : String) : Int :=
  if enchantmentType = "fire" then 15
  else if enchantmentType = "ice" then 13
  else if enchantmentType = "lightning" then 14
  else if enchantmentType = "poison" then 12
  else if enchantmentType = "holy" then 16
  else if enchantmentType = "dark" then 15
  else if enchantmentType = "strength" then 10
  else if enchantmentType = "agility" then 10
  else if enchantmentType = "intelligence" then 10
  else 10

/-- `calculateEnchantmentBonus`: `Math.floor((level * 2) * multiplier)`.
With multipliers of the form k/10 and levels clamped to 1..10, the source's
double-precision products round to the exact rational values, so the integer
computation below agrees with the JS result. -/
def calculateEnchantmentBonus (enchantmentType : String) (enchantmentLevel : Int) : Int :=
  Int.fdiv (enchantmentLevel * 2 * enchantmentTypeMultiplierTimes10 enchantmentType) 10

/-- The `EnchantedItemDecorator` constructor: the level is clamped to 1..10
(`Math.max(1, Math.min(10, enchantmentLevel))`). -/
def EnchantedItemDecorator (item : ItemProperties) (enchantmentType : String)
    (enchantmentLevel : Int) : EnhancedItem :=
  EnhancedItem.enchanted item enchantmentType (max 1 (min 10 enchantmentLevel))

/-- The `DurableItemDecorator` constructor: current durability starts at the
maximum. -/
def DurableItemDecorator (item : ItemProperties) (maxDurability : Int) : EnhancedItem :=
  EnhancedItem.durable item maxDurability maxDurability

/-- The `MasterworkItemDecorator` constructor. -/
def MasterworkItemDecorator (item : ItemProperties) : EnhancedItem :=
  EnhancedItem.masterwork item

/-- The `LegendaryItemDecorator` constructor. -/
def LegendaryItemDecorator (item : ItemProperties) (legendaryEffect : String) : EnhancedItem :=
  EnhancedItem.legendary item legendaryEffect

/-- `getEnchantmentPrefix`. -/
def enchantmentPrefixOf (enchantmentType : String) : String :=
  if enchantmentType = "fire" then "Flaming"
  else if enchantmentType = "ice" then "Frozen"
  else if enchantmentType = "lightning" then "Thunder"
  else if enchantmentType = "poison" then "Venomous"
  else if enchantmentType = "holy" then "Blessed"
  else if enchantmentType = "dark" then "Cursed"
  else if enchantmentType = "strength" then "Mighty"
  else if enchantmentType = "agility" then "Swift"
  else if enchantmentType = "intelligence" then "Wise"
  else "Enchanted"

/-- `getDurabilitySuffix`, with the float ratio comparisons expressed by
integer cross-multiplication (faithful for the constructible states, where
0 ≤ current ≤ max and max > 0). -/
def durabilitySuffixOf (currentDurability maxDurability : Int) : String :=
  if 10 * currentDurability ≥ 8 * maxDurability then "(Excellent)"
  else if 10 * currentDurability ≥ 6 * maxDurability then "(Good)"
  else if 10 * currentDurability ≥ 4 * maxDurability then "(Fair)"
  else if 10 * currentDurability ≥ 2 * maxDurability then "(Poor)"
  else if currentDurability > 0 then "(Damaged)"
  else "(Broken)"

/-- `getValue` across the decorator classes.  Durable: `Math.floor` of the
value scaled by the durability ratio; Masterwork: `Math.floor(value * 1.5)`;
Legendary: `value * 5`; Enchanted: value plus 50 gold per bonus point. -/
def EnhancedItem.getValue : EnhancedItem → Int
  | EnhancedItem.base item => item.value
  | EnhancedItem.enchanted item enchantmentType enchantmentLevel =>
      item.value + calculateEnchantmentBonus enchantmentType enchantmentLevel * 50
  | EnhancedItem.durable item currentDurability maxDurability =>
      Int.fdiv (item.value * currentDurability) maxDurability
  | EnhancedItem.masterwork item => Int.fdiv (item.value * 3) 2
  | EnhancedItem.legendary item _ => item.value * 5

/-- `getDisplayName` across the decorator classes. -/
def EnhancedItem.getDisplayName : EnhancedItem → String
  | EnhancedItem.base item => item.getDisplayName
  | EnhancedItem.enchanted item enchantmentType _ =>
      enchantmentPrefixOf enchantmentType ++ " " ++ item.name
  | EnhancedItem.durable item currentDurability maxDurability =>
      item.name ++ " " ++ durabilitySuffixOf currentDurability maxDurability
  | EnhancedItem.masterwork item => "Masterwork " ++ item.name
  | EnhancedItem.legendary item _ => "Legendary " ++ item.name

/-- The `enhancements` argument of `ItemDecoratorFactory.createEnhancedItem`. -/
structure Enhancements where
  enchantment : Option (String × Int)
  durability : Option Int
  masterwork : Bool
  legendary : Option String
deriving DecidableEq, Inhabited

/-- `ItemDecoratorFactory.createEnhancedItem`.  Every branch constructs its
decorator around the original `item` (the source passes `item as Item`, never
the accumulated `enhancedItem`), so each applicable branch overwrites the
previous choice.  JS truthiness: a durability of 0 and an empty legendary
string are falsy and skip their branches. -/
def ItemDecoratorFactory.createEnhancedItem (item : ItemProperties) (enhancements : Enhancements) :
    EnhancedItem :=
  let enhancedItem := EnhancedItem.base item
  let enhancedItem :=
    match enhancements.legendary with
    | some effect => if effect ≠ "" then LegendaryItemDecorator item effect else enhancedItem
    | none => enhancedItem
  let enhancedItem := if enhancements.masterwork then MasterworkItemDecorator item else enhancedItem
  let enhancedItem :=
    match enhancements.durability with
    | some d => if d ≠ 0 then DurableItemDecorator item d else enhancedItem
    | none => enhancedItem
  let enhancedItem :=
    match enhancements.enchantment with
    | some e => EnchantedItemDecorator item e.1 e.2
    | none => enhancedItem
  enhancedItem

/-! ## Derived observations used in the statements -/

/-- The save ids with their timestamps, in the map's insertion order. -/
def keyTimestamps (c : GameCaretaker) : List (String × Int) :=
  c.mementos.map (fun e => (e.1, e.2.timestamp))

/-- Repeatedly call `saveGame` with the given generated ids and clock values
(the save name is immaterial to storage).  A failing `saveGame` — impossible
while the originator holds a state — would leave the caretaker unchanged. -/
def runSaves (c : GameCaretaker) (player : Player) (map : GameMap)
    (saves : List (String × Int)) : GameCaretaker :=
  saves.foldl (fun acc s =>
    match acc.saveGame "save" player map s.1 s.2 with
    | none => acc
    | some r => r.2) c

/-- Whether an import entry survives `importSaves` at clock `now`: it parsed,
and the rebuilt memento passes `isValid`. -/
def importEntryOk (now : Int) (entry : Option MementoJson) : Bool :=
  match entry with
  | none => false
  | some data => (GameMemento.fromJSON data now).isValid

/-! ## Concrete sample values -/

/-- A concrete player used to instantiate the theorems. -/
def samplePlayer : Player :=
  { name := "Hero", characterClass := "wizard",
    position := some { x := 0, y := 0, z := 0 },
    animation := some { type := "idle", direction := "south" } }

/-- A 3×1 all-walkable flat map. -/
def sampleMap : GameMap :=
  { name := "Forest", width := 3, height := 1,
    getTile := fun _ _ => some { walkable := true, elevation := 0 } }

/-- An eastward movement command, as constructed by `MoveEastCommand`. -/
def eastCommand : MovementCommand :=
  { deltaX := 1, deltaY := 0, deltaZ := 0, direction := "east", previousPosition := none }

/-- A player standing on the eastern edge of `sampleMap`. -/
def edgePlayer : Player :=
  { samplePlayer with position := some { x := 2, y := 0, z := 0 } }

/-- A freshly constructed caretaker whose originator holds a state. -/
def sampleCaretaker : GameCaretaker :=
  { mementos := []
    originator := { currentState := some default, version := "1.0.0" }
    maxSaves := 10, autoSaveInterval := 300000, lastAutoSave := 0 }

/-- A memento stamped at time 1. -/
def sampleMemento : GameMemento := GameMemento.make "save_1" default default "1.0.0" 1

/-- A stackable potion item. -/
def potion : ItemProperties :=
  { id := "potion", name := "Potion", description := "Heals", type := "consumable",
    rarity := "common", slot := "none", weight := 1, value := 10, stackable := true,
    maxStack := 10, icon := "p", spriteKey := "p" }

/-- A stored stack of one potion. -/
def potionStack : ItemInstance := { item := potion, quantity := 1, uniqueId := "u1" }

/-- An incoming potion instance with a fresh unique id. -/
def incomingPotion : ItemInstance := { item := potion, quantity := 1, uniqueId := "u2" }

/-- A one-slot inventory already at capacity with a partial potion stack. -/
def fullInventory : InventoryComponent :=
  { items := [], newItems := [("u1", potionStack)], maxCapacity := 1, gold := 0 }

/-- A non-stackable base weapon worth 100 gold. -/
def sword : ItemProperties :=
  { id := "sword", name := "Sword", description := "Sharp", type := "weapon",
    rarity := "common", slot := "weapon", weight := 10, value := 100, stackable := false,
    maxStack := 1, icon := "s", spriteKey := "s" }

/-- An enhancement request combining a legendary effect and an enchantment. -/
def bothEnhancements : Enhancements :=
  { enchantment := some ("strength", 1), durability := none, masterwork := false,
    legendary := some "Storm" }

/-- The same request with only the enchantment. -/
def enchantOnly : Enhancements :=
  { enchantment := some ("strength", 1), durability := none, masterwork := false,
    legendary := none }

/-! # Theorems -/

/-- Folding a function that ignores the elements rejected by `p` visits only
the elements accepted by `p`. -/
theorem foldl_filter_of_skips {α β : Type _} (g : β → α → β) (p : α → Bool)
    (hg : ∀ b a, p a = false → g b a = b) :
    ∀ (l : List α) (init : β), l.foldl g init = (l.filter p).foldl g init := by
  intro l
  induction l with
  | nil => intro init; rfl
  | cons a t ih =>
      intro init
      by_cases h : p a = true
      · simp only [List.filter_cons, h, if_true, List.foldl_cons, ih]
      · have h₁ : p a = false := by simpa using h
        simp only [List.filter_cons, h₁, Bool.false_eq_true, if_false, List.foldl_cons,
          hg init a h₁, ih]

/-- C1 (counterexample): a valid memento stamped at time 1, serialized and
re-parsed at time 2, does not keep its timestamp — the claimed round-trip
identity fails. -/
theorem memento_roundtrip_counterexample :
    sampleMemento.isValid = true ∧
    (GameMemento.fromJSON sampleMemento.toJSON 2).timestamp ≠ sampleMemento.timestamp ∧
    (GameMemento.fromJSON sampleMemento.toJSON 2).state ≠ sampleMemento.state := by
  decide

/-- C1 (amended): `fromJSON (m.toJSON())` evaluated at clock value `now`
reproduces the id and version exactly, but re-stamps the memento — the
result's timestamp, and the timestamp fields embedded in its state and
metadata, all equal `now` (the reconstruction time), while every other field
of the state and metadata is preserved. -/
theorem memento_roundtrip_amended (m : GameMemento) (now : Int) :
    (GameMemento.fromJSON m.toJSON now).id = m.id ∧
    (GameMemento.fromJSON m.toJSON now).version = m.version ∧
    (GameMemento.fromJSON m.toJSON now).timestamp = now ∧
    (GameMemento.fromJSON m.toJSON now).state = { m.state with timestamp := now } ∧
    (GameMemento.fromJSON m.toJSON now).metadata = { m.metadata with timestamp := now } :=
  ⟨rfl, rfl, rfl, rfl, rfl⟩

/-- C3: `importSaves` with a well-parsed outer array produces exactly the
result of importing only the entries that parse and validate — each failing
entry is skipped without affecting the rest — while an outer parse failure
(`none`) discards the entire existing save set, leaving an empty map. -/
theorem importSaves_skip_and_reset (c : GameCaretaker)
    (entries : List (Option MementoJson)) (now : Int) :
    c.importSaves none now = { c with mementos := [] } ∧
    c.importSaves (some entries) now =
      c.importSaves (some (entries.filter (importEntryOk now))) now := by
  refine ⟨rfl, ?_⟩
  simp only [GameCaretaker.importSaves]
  rw [foldl_filter_of_skips _ (importEntryOk now) ?_ entries c.mementos]
  intro b a ha
  match a with
  | none => rfl
  | some data =>
      simp only [importEntryOk] at ha
      simp only [ha, Bool.false_eq_true, if_false]

/-- C9 (counterexample): for a 100-gold sword enchanted with fire at level 3
the bonus is `floor(3·2·1.5) = 9`, and `getValue` returns `100 + 9·50 = 550`,
not the claimed `value + floor(level · multiplier · 2) = 109`. -/
theorem enchanted_value_counterexample :
    (EnchantedItemDecorator sword "fire" 3).getValue = 550 ∧
    calculateEnchantmentBonus "fire" 3 = 9 ∧
    (550 : ℤ) ≠ sword.value + 9 := by
  decide

/-- C9 (amended): the enchanted decorator's value is the base item's value
plus 50 gold per bonus point, where the bonus is
`floor(clampedLevel × typeMultiplier × 2)` with the level clamped to 1..10. -/
theorem enchanted_value_formula (item : ItemProperties) (t : String) (l : Int) :
    (EnchantedItemDecorator item t l).getValue =
      item.value +
        50 * ⌊((max 1 (min 10 l) : ℤ) : ℚ) * ((enchantmentTypeMultiplierTimes10 t : ℚ) / 10) * 2⌋ := by
  have key : ⌊((max 1 (min 10 l) : ℤ) : ℚ) * ((enchantmentTypeMultiplierTimes10 t : ℚ) / 10) * 2⌋
      = (max 1 (min 10 l) * 2 * enchantmentTypeMultiplierTimes10 t).fdiv 10 := by
    have hcast : ((max 1 (min 10 l) : ℤ) : ℚ) * ((enchantmentTypeMultiplierTimes10 t : ℚ) / 10) * 2
        = ((max 1 (min 10 l) * 2 * enchantmentTypeMultiplierTimes10 t : ℤ) : ℚ) / ((10 : ℕ) : ℚ) := by
      push_cast
      ring
    rw [hcast, Rat.floor_intCast_div_natCast, Int.fdiv_eq_ediv _ (by norm_num)]
    norm_num
  rw [key]
  show item.value + calculateEnchantmentBonus t (max 1 (min 10 l)) * 50 = _
  unfold calculateEnchantmentBonus
  ring

/-- Characterization of `isValidPosition`: it accepts exactly the in-bounds,
walkable cells whose elevation differs from the player's current cell by at
most 1. -/
theorem isValidPosition_iff (p : Player) (map : GameMap) (x y z : Int) :
    MovementCommand.isValidPosition p map x y z = true ↔
      (0 ≤ x ∧ x < map.width ∧ 0 ≤ y ∧ y < map.height ∧
       map.isWalkable x y = true ∧
       |map.getElevation x y - map.getElevation p.getX p.getY| ≤ 1) := by
  simp only [MovementCommand.isValidPosition]
  split_ifs with h₁ h₂ h₃
  · simp only [Bool.or_eq_true, decide_eq_true_eq] at h₁
    simp only [Bool.false_eq_true, false_iff]
    rintro ⟨hx₀, hxw, hy₀, hyh, -, -⟩
    omega
  · simp only [Bool.not_eq_true'] at h₂
    simp only [Bool.false_eq_true, false_iff]
    rintro ⟨-, -, -, -, hwalk, -⟩
    rw [hwalk] at h₂
    exact Bool.noConfusion h₂
  · simp only [Bool.false_eq_true, false_iff]
    rintro ⟨-, -, -, -, -, helev⟩
    exact absurd helev (not_le.mpr h₃)
  · simp only [true_iff]
    simp only [Bool.or_eq_true, decide_eq_true_eq, not_or] at h₁
    have h₂a : map.isWalkable x y = true := by
      revert h₂
      cases map.isWalkable x y <;> simp
    exact ⟨by omega, by omega, by omega, by omega, h₂a, not_lt.mp h₃⟩

/-- The outcome flag of `execute` coincides with `canExecute` (the body
re-validates the same target before mutating). -/
theorem execute_fst (cmd : MovementCommand) (p : Player) (map : GameMap) :
    (cmd.execute p map).1 = cmd.canExecute p map := by
  unfold MovementCommand.execute
  cases h : cmd.canExecute p map with
  | false => simp [h]
  | true =>
      have hv : MovementCommand.isValidPosition p map (p.getX + cmd.deltaX)
          (p.getY + cmd.deltaY) (p.getZ + cmd.deltaZ) = true := by
        rwa [MovementCommand.canExecute] at h
      simp [h, hv]

/-- C5: executing a movement command succeeds exactly when the target cell
(one delta from the player) is within bounds, walkable, and within one unit
of elevation of the current cell; on failure the player is unchanged. -/
theorem movement_validity (cmd : MovementCommand) (p : Player) (map : GameMap) :
    ((cmd.execute p map).1 = true ↔
      (0 ≤ p.getX + cmd.deltaX ∧ p.getX + cmd.deltaX < map.width ∧
       0 ≤ p.getY + cmd.deltaY ∧ p.getY + cmd.deltaY < map.height ∧
       map.isWalkable (p.getX + cmd.deltaX) (p.getY + cmd.deltaY) = true ∧
       |map.getElevation (p.getX + cmd.deltaX) (p.getY + cmd.deltaY) -
          map.getElevation p.getX p.getY| ≤ 1)) ∧
    ((cmd.execute p map).1 = false → (cmd.execute p map).2.2 = p) := by
  constructor
  · rw [execute_fst, MovementCommand.canExecute]
    exact isValidPosition_iff p map _ _ _
  · intro hfail
    unfold MovementCommand.execute at hfail ⊢
    cases h : cmd.canExecute p map with
    | false => simp [h]
    | true =>
        have hv : MovementCommand.isValidPosition p map (p.getX + cmd.deltaX)
            (p.getY + cmd.deltaY) (p.getZ + cmd.deltaZ) = true := by
          rwa [MovementCommand.canExecute] at h
        rw [h] at hfail
        simp [hv] at hfail

/-- C5 (witness): on the 3×1 map, stepping east off the edge fails and leaves
the player untouched. -/
theorem movement_validity_witness :
    (eastCommand.execute edgePlayer sampleMap).2.2 = edgePlayer :=
  (movement_validity eastCommand edgePlayer sampleMap).2 (by decide)

/-- C6: after a successful `execute`, `undo` succeeds, restores the exact
prior (x, y, z), and resets the animation type to idle. -/
theorem undo_inverse (cmd : MovementCommand) (p : Player) (map : GameMap)
    (h : (cmd.execute p map).1 = true) :
    ((cmd.execute p map).2.1.undo (cmd.execute p map).2.2).1 = true ∧
    ((cmd.execute p map).2.1.undo (cmd.execute p map).2.2).2.getX = p.getX ∧
    ((cmd.execute p map).2.1.undo (cmd.execute p map).2.2).2.getY = p.getY ∧
    ((cmd.execute p map).2.1.undo (cmd.execute p map).2.2).2.getZ = p.getZ ∧
    ((cmd.execute p map).2.1.undo (cmd.execute p map).2.2).2.getCurrentAnimationType = "idle" := by
  have hc : cmd.canExecute p map = true := by rw [← execute_fst]; exact h
  have hv : MovementCommand.isValidPosition p map (p.getX + cmd.deltaX)
      (p.getY + cmd.deltaY) (p.getZ + cmd.deltaZ) = true := by
    rwa [MovementCommand.canExecute] at hc
  have hexec : cmd.execute p map =
      (true, { cmd with previousPosition := some { x := p.getX, y := p.getY, z := p.getZ } },
        ((p.setPosition (p.getX + cmd.deltaX) (p.getY + cmd.deltaY)
          (p.getZ + cmd.deltaZ)).setDirection cmd.direction).setAnimationType "walk") := by
    unfold MovementCommand.execute
    simp [hc, hv]
  rw [hexec]
  cases hpos : p.position <;> cases hanim : p.animation <;>
    simp [MovementCommand.undo, Player.setPosition, Player.setDirection,
      Player.setAnimationType, Player.getX, Player.getY, Player.getZ,
      Player.getCurrentAnimationType, hpos, hanim]

/-- C6 (witness): a concrete successful move east from (0,0), undone. -/
theorem undo_inverse_witness :
    ((eastCommand.execute samplePlayer sampleMap).2.1.undo
        (eastCommand.execute samplePlayer sampleMap).2.2).1 = true ∧
    ((eastCommand.execute samplePlayer sampleMap).2.1.undo
        (eastCommand.execute samplePlayer sampleMap).2.2).2.getX = samplePlayer.getX ∧
    ((eastCommand.execute samplePlayer sampleMap).2.1.undo
        (eastCommand.execute samplePlayer sampleMap).2.2).2.getY = samplePlayer.getY ∧
    ((eastCommand.execute samplePlayer sampleMap).2.1.undo
        (eastCommand.execute samplePlayer sampleMap).2.2).2.getZ = samplePlayer.getZ ∧
    ((eastCommand.execute samplePlayer sampleMap).2.1.undo
        (eastCommand.execute samplePlayer sampleMap).2.2).2.getCurrentAnimationType = "idle" :=
  undo_inverse eastCommand samplePlayer sampleMap (by decide)

/-- C7 (counterexample): a full one-slot inventory holding a partial potion
stack rejects a fresh instance of the same stackable potion even though the
combined quantity fits within the max stack — the claimed merge-at-capacity
does not happen, and the claimed "rejects only when not already a partial
stack" is violated. -/
theorem addItemInstance_counterexample :
    fullInventory.isFull = true ∧
    potion.stackable = true ∧
    fullInventory.findItemByItemId incomingPotion.item.id = some potionStack ∧
    potionStack.quantity + incomingPotion.quantity ≤ potion.maxStack ∧
    (fullInventory.addItemInstance incomingPotion).1 = false ∧
    (fullInventory.addItemInstance incomingPotion).2.1 = fullInventory := by
  decide

/-- C7 (amended): `addItemInstance` rejects exactly when the inventory is at
capacity and the incoming instance's uniqueId is not already a key of the
new-item map (leaving the inventory unchanged); when it is not rejected and a
same-item stackable instance exists whose combined quantity fits the max
stack, it merges into that instance and returns true. -/
theorem addItemInstance_spec (inv : InventoryComponent) (inst : ItemInstance) :
    ((inv.addItemInstance inst).1 = false ↔
      (inv.isFull = true ∧ mapHas inv.newItems inst.uniqueId = false)) ∧
    ((inv.addItemInstance inst).1 = false → (inv.addItemInstance inst).2.1 = inv) ∧
    (∀ ex, (inv.isFull = false ∨ mapHas inv.newItems inst.uniqueId = true) →
      inv.findItemByItemId inst.item.id = some ex →
      inst.item.stackable = true →
      ex.quantity + inst.quantity ≤ inst.item.maxStack →
      inv.addItemInstance inst =
        (true, inv.updateItemQuantity ex.uniqueId (ex.quantity + inst.quantity),
          [{ eventType := "item_added"
             message := "Added " ++ toString inst.quantity ++ " " ++
               inst.item.name ++ " to existing stack" }])) := by
  unfold InventoryComponent.addItemInstance
  cases hcond : (inv.isFull && !(mapHas inv.newItems inst.uniqueId)) with
  | true =>
      have hc : inv.isFull = true ∧ mapHas inv.newItems inst.uniqueId = false := by
        rw [Bool.and_eq_true, Bool.not_eq_true'] at hcond
        exact hcond
      rw [if_pos rfl]
      refine ⟨iff_of_true rfl hc, fun _ => rfl, ?_⟩
      intro ex hor _ _ _
      rcases hor with hfull | hhas
      · rw [hc.1] at hfull; exact Bool.noConfusion hfull
      · rw [hc.2] at hhas; exact Bool.noConfusion hhas
  | false =>
      have hnot : ¬(inv.isFull = true ∧ mapHas inv.newItems inst.uniqueId = false) := by
        rintro ⟨hf, hm⟩
        rw [hf, hm] at hcond
        exact Bool.noConfusion hcond
      rw [if_neg (by decide)]
      cases hfind : inv.findItemByItemId inst.item.id with
      | none =>
          refine ⟨iff_of_false (fun hfalse => Bool.noConfusion hfalse) hnot,
            fun hfalse => absurd hfalse (fun hfalse => Bool.noConfusion hfalse), ?_⟩
          intro ex _ hfind₁ _ _
          exact Option.noConfusion hfind₁
      | some ex =>
          dsimp only
          cases hsf : (inst.item.stackable &&
              decide (ex.quantity + inst.quantity ≤ inst.item.maxStack)) with
          | true =>
              rw [if_pos rfl]
              refine ⟨iff_of_false (fun hfalse => Bool.noConfusion hfalse) hnot,
                fun hfalse => absurd hfalse (fun hfalse => Bool.noConfusion hfalse), ?_⟩
              intro ex₁ _ hfind₁ _ _
              injection hfind₁ with hex
              subst hex
              rfl
          | false =>
              rw [if_neg (by decide)]
              refine ⟨iff_of_false (fun hfalse => Bool.noConfusion hfalse) hnot,
                fun hfalse => absurd hfalse (fun hfalse => Bool.noConfusion hfalse), ?_⟩
              intro ex₁ _ hfind₁ hstack hfit
              injection hfind₁ with hex
              subst hex
              rw [hstack, decide_eq_true hfit] at hsf
              exact Bool.noConfusion hsf

/-- C7 (witness): a one-free-slot inventory merges a second potion into the
existing stack. -/
theorem addItemInstance_spec_witness :
    ({ fullInventory with maxCapacity := 2 } : InventoryComponent).addItemInstance incomingPotion =
      (true, ({ fullInventory with maxCapacity := 2 } : InventoryComponent).updateItemQuantity
          potionStack.uniqueId (potionStack.quantity + incomingPotion.quantity),
        [{ eventType := "item_added"
           message := "Added " ++ toString incomingPotion.quantity ++ " " ++
             incomingPotion.item.name ++ " to existing stack" }]) :=
  (addItemInstance_spec { fullInventory with maxCapacity := 2 } incomingPotion).2.2
    potionStack (by decide) (by decide) (by decide) (by decide)

/-- C8 (counterexample): requesting legendary + enchantment yields exactly
the same decorator as requesting the enchantment alone — the legendary wrap
is discarded, so the value reflects only the enchantment rule (100 + 100),
not both rules (composition would start from the legendary 5× value). -/
theorem createEnhancedItem_counterexample :
    ItemDecoratorFactory.createEnhancedItem sword bothEnhancements =
      ItemDecoratorFactory.createEnhancedItem sword enchantOnly ∧
    (ItemDecoratorFactory.createEnhancedItem sword bothEnhancements).getValue = 200 ∧
    (LegendaryItemDecorator sword "Storm").getValue = 500 ∧
    (200 : ℤ) ≠ 500 + 100 := by
  decide

/-- C8 (amended): `createEnhancedItem` does not compose decorators: every
branch wraps the original base item and overwrites the previous choice, so
with the checks run in order legendary, masterwork, durability, enchantment,
the result is the single decorator of the last applicable enhancement (an
enchantment wins outright; otherwise a non-zero durability; otherwise
masterwork; otherwise a non-empty legendary effect; otherwise the bare item),
and `getDisplayName`/`getValue` are those of that one decorator over the base
item. -/
theorem createEnhancedItem_spec (item : ItemProperties) (e : Enhancements) :
    (∀ t l, e.enchantment = some (t, l) →
      ItemDecoratorFactory.createEnhancedItem item e = EnchantedItemDecorator item t l) ∧
    (e.enchantment = none → ∀ d, e.durability = some d → d ≠ 0 →
      ItemDecoratorFactory.createEnhancedItem item e = DurableItemDecorator item d) ∧
    (e.enchantment = none → e.durability.getD 0 = 0 → e.masterwork = true →
      ItemDecoratorFactory.createEnhancedItem item e = MasterworkItemDecorator item) ∧
    (e.enchantment = none → e.durability.getD 0 = 0 → e.masterwork = false →
      ∀ s, e.legendary = some s → s ≠ "" →
      ItemDecoratorFactory.createEnhancedItem item e = LegendaryItemDecorator item s) ∧
    (e.enchantment = none → e.durability.getD 0 = 0 → e.masterwork = false →
      e.legendary.getD "" = "" →
      ItemDecoratorFactory.createEnhancedItem item e = EnhancedItem.base item) := by
  obtain ⟨ench, dur, mw, leg⟩ := e
  refine ⟨?_, ?_, ?_, ?_, ?_⟩
  · intro t l h
    cases h
    rfl
  · intro h d hd hdne
    cases h
    cases hd
    simp only [ItemDecoratorFactory.createEnhancedItem, if_pos hdne]
  · intro h hd hmw
    cases h
    cases hmw
    cases dur with
    | none => rfl
    | some d =>
        have hd0 : d = 0 := hd
        cases hd0
        simp [ItemDecoratorFactory.createEnhancedItem]
  · intro h hd hmw s hleg hsne
    cases h
    cases hmw
    cases hleg
    cases dur with
    | none =>
        simp [ItemDecoratorFactory.createEnhancedItem, hsne]
    | some d =>
        have hd0 : d = 0 := hd
        cases hd0
        simp [ItemDecoratorFactory.createEnhancedItem, hsne]
  · intro h hd hmw hleg
    cases h
    cases hmw
    cases dur with
    | none =>
        cases leg with
        | none => rfl
        | some s =>
            have hs : s = "" := hleg
            cases hs
            simp [ItemDecoratorFactory.createEnhancedItem]
    | some d =>
        have hd0 : d = 0 := hd
        cases hd0
        cases leg with
        | none =>
            simp [ItemDecoratorFactory.createEnhancedItem]
        | some s =>
            have hs : s = "" := hleg
            cases hs
            simp [ItemDecoratorFactory.createEnhancedItem]

/-- C8 (witness): with both a legendary effect and an enchantment requested,
the factory returns the enchanted decorator alone. -/
theorem createEnhancedItem_spec_witness :
    ItemDecoratorFactory.createEnhancedItem sword bothEnhancements =
      EnchantedItemDecorator sword "strength" 1 :=
  (createEnhancedItem_spec sword bothEnhancements).1 "strength" 1 rfl

/-- Gold is untouched by `updateItemQuantity`. -/
theorem updateItemQuantity_gold (inv : InventoryComponent) (uniqueId : String)
    (newQuantity : Int) : (inv.updateItemQuantity uniqueId newQuantity).gold = inv.gold := by
  unfold InventoryComponent.updateItemQuantity
  cases mapGet inv.newItems uniqueId with
  | none => rfl
  | some inst =>
      dsimp only
      split_ifs <;> rfl

/-- Gold is untouched by `addItem`. -/
theorem addItem_gold (inv : InventoryComponent) (item : InventoryItem) :
    (inv.addItem item).2.gold = inv.gold := by
  unfold InventoryComponent.addItem
  split_ifs with h
  · rfl
  · cases mapGet inv.items item.id with
    | none => rfl
    | some existingItem =>
        dsimp only
        split_ifs <;> rfl

/-- Gold is untouched by `addItemInstance`. -/
theorem addItemInstance_gold (inv : InventoryComponent) (inst : ItemInstance) :
    (inv.addItemInstance inst).2.1.gold = inv.gold := by
  unfold InventoryComponent.addItemInstance
  split_ifs with h
  · rfl
  · cases inv.findItemByItemId inst.item.id with
    | none => rfl
    | some ex =>
        dsimp only
        split_ifs with h₁
        · exact updateItemQuantity_gold inv ex.uniqueId (ex.quantity + inst.quantity)
        · rfl

/-- Gold is untouched by `removeItem`. -/
theorem removeItem_gold (inv : InventoryComponent) (itemId : String) (quantity : Int) :
    (inv.removeItem itemId quantity).2.gold = inv.gold := by
  unfold InventoryComponent.removeItem
  cases mapGet inv.items itemId with
  | none => rfl
  | some item =>
      dsimp only
      split_ifs <;> rfl

/-- Gold is untouched by `removeItemInstance`. -/
theorem removeItemInstance_gold (inv : InventoryComponent) (uniqueId : String) (quantity : Int) :
    (inv.removeItemInstance uniqueId quantity).2.1.gold = inv.gold := by
  unfold InventoryComponent.removeItemInstance
  cases mapGet inv.newItems uniqueId with
  | none => rfl
  | some inst =>
      dsimp only
      split_ifs with h
      · rfl
      · exact updateItemQuantity_gold inv uniqueId (inst.quantity - quantity)

/-- Gold is untouched by `removeItemById`. -/
theorem removeItemById_gold (inv : InventoryComponent) (itemId : String) (quantity : Int) :
    (inv.removeItemById itemId quantity).2.1.gold = inv.gold := by
  unfold InventoryComponent.removeItemById
  cases inv.findItemByItemId itemId with
  | none => rfl
  | some inst => exact removeItemInstance_gold inv inst.uniqueId quantity

/-- Every single inventory operation keeps the gold non-negative. -/
theorem applyOp_gold_nonneg (inv : InventoryComponent) (op : InvOp) (h : 0 ≤ inv.gold) :
    0 ≤ (inv.applyOp op).gold := by
  cases op with
  | addItem item => rw [InventoryComponent.applyOp, addItem_gold]; exact h
  | addItemInstance inst => rw [InventoryComponent.applyOp, addItemInstance_gold]; exact h
  | removeItem itemId quantity => rw [InventoryComponent.applyOp, removeItem_gold]; exact h
  | removeItemInstance uniqueId quantity =>
      rw [InventoryComponent.applyOp, removeItemInstance_gold]; exact h
  | removeItemById itemId quantity =>
      rw [InventoryComponent.applyOp, removeItemById_gold]; exact h
  | addGold amount =>
      show 0 ≤ inv.gold + max 0 amount
      exact add_nonneg h (le_max_left 0 amount)
  | removeGold amount =>
      show 0 ≤ (inv.removeGold amount).2.1.gold
      unfold InventoryComponent.removeGold
      split_ifs with hge
      · simpa using hge
      · exact h
  | clear => exact le_refl 0

/-- C10: the gold invariant.  Negative `addGold` amounts are clamped to zero
(gold unchanged, `gold_changed` still emitted); `removeGold` of more than the
balance returns false and changes nothing; `clear` resets gold to 0; and from
a fresh inventory every sequence of operations keeps gold non-negative. -/
theorem gold_invariant :
    (∀ (inv : InventoryComponent) (amount : Int), amount < 0 →
      ((inv.addGold amount).1.gold = inv.gold ∧
       (inv.addGold amount).2.map InventoryEvent.eventType = ["gold_changed"])) ∧
    (∀ (inv : InventoryComponent) (amount : Int), inv.gold < amount →
      inv.removeGold amount = (false, inv, [])) ∧
    (∀ inv : InventoryComponent, inv.clear.gold = 0) ∧
    (∀ (maxCapacity : Nat) (ops : List InvOp),
      0 ≤ ((InventoryComponent.create maxCapacity).applyOps ops).gold) := by
  refine ⟨?_, ?_, ?_, ?_⟩
  · intro inv amount h
    constructor
    · show inv.gold + max 0 amount = inv.gold
      rw [max_eq_left (le_of_lt h), add_zero]
    · rfl
  · intro inv amount h
    unfold InventoryComponent.removeGold
    rw [if_neg (not_le.mpr h)]
  · intro inv
    rfl
  · intro maxCapacity ops
    have hstep : ∀ (inv : InventoryComponent), 0 ≤ inv.gold →
        0 ≤ (inv.applyOps ops).gold := by
      induction ops with
      | nil => intro inv h; exact h
      | cons op rest ih =>
          intro inv h
          exact ih (inv.applyOp op) (applyOp_gold_nonneg inv op h)
    exact hstep (InventoryComponent.create maxCapacity) (le_refl 0)

/-- C10 (witness): a concrete application of the gold invariant — adding a
negative amount leaves 0 gold, an uncovered removal is rejected, and a short
operation sequence keeps the balance non-negative. -/
theorem gold_invariant_witness :
    ((InventoryComponent.create 20).addGold (-5)).1.gold = (InventoryComponent.create 20).gold ∧
    (InventoryComponent.create 20).removeGold 7 = (false, InventoryComponent.create 20, []) ∧
    0 ≤ ((InventoryComponent.create 20).applyOps
        [InvOp.addGold 3, InvOp.removeGold 2, InvOp.clear]).gold :=
  ⟨(gold_invariant.1 (InventoryComponent.create 20) (-5) (by decide)).1,
   gold_invariant.2.1 (InventoryComponent.create 20) 7 (by decide),
   gold_invariant.2.2.2 20 [InvOp.addGold 3, InvOp.removeGold 2, InvOp.clear]⟩

/-- `cleanupOldSaves` only touches the memento map. -/
theorem cleanupOldSaves_fields (c : GameCaretaker) :
    (c.cleanupOldSaves).originator = c.originator ∧
    (c.cleanupOldSaves).maxSaves = c.maxSaves ∧
    (c.cleanupOldSaves).autoSaveInterval = c.autoSaveInterval ∧
    (c.cleanupOldSaves).lastAutoSave = c.lastAutoSave := by
  unfold GameCaretaker.cleanupOldSaves
  split_ifs <;> exact ⟨rfl, rfl, rfl, rfl⟩

/-- When the interval has elapsed and the originator holds a state,
`autoSave` performs one `saveGame` named "Auto Save" after stamping the
auto-save clock. -/
theorem autoSave_fires (c : GameCaretaker) (st : GameState) (player : Player) (map : GameMap)
    (genId : String) (now : Int) (h : c.originator.currentState = some st)
    (hge : c.autoSaveInterval ≤ now - c.lastAutoSave) :
    ∃ m c₁, c.autoSave player map genId now = some (some m, c₁) ∧
      m.metadata.saveName = "Auto Save" ∧ m.id = genId ∧ m.timestamp = now ∧
      c₁ = GameCaretaker.cleanupOldSaves
        { c with lastAutoSave := now, mementos := mapSet c.mementos m.id m } := by
  unfold GameCaretaker.autoSave
  rw [if_neg (not_lt.mpr hge)]
  unfold GameCaretaker.saveGame GameOriginator.createMemento
  dsimp only
  rw [h]
  exact ⟨_, _, rfl, rfl, rfl, rfl, rfl⟩

/-- C4: auto-save throttling.  With a current state held, `autoSave` at time
`now` is a pure no-op returning null while less than `autoSaveInterval` ms
have passed since the last auto-save; otherwise it performs exactly one save
named "Auto Save" and stamps the clock — hence a second call within the
interval does nothing and a later call past the interval saves again. -/
theorem autoSave_throttling (c : GameCaretaker) (st : GameState) (player : Player)
    (map : GameMap) (genId : String) (now : Int)
    (h : c.originator.currentState = some st) :
    (now - c.lastAutoSave < c.autoSaveInterval →
      c.autoSave player map genId now = some (none, c)) ∧
    (c.autoSaveInterval ≤ now - c.lastAutoSave →
      ∃ m c₁, c.autoSave player map genId now = some (some m, c₁) ∧
        m.metadata.saveName = "Auto Save" ∧ m.id = genId ∧ m.timestamp = now ∧
        c₁.lastAutoSave = now ∧
        c₁ = GameCaretaker.cleanupOldSaves
          { c with lastAutoSave := now, mementos := mapSet c.mementos m.id m } ∧
        (∀ (genId₂ : String) (t₂ : Int), t₂ - now < c.autoSaveInterval →
          c₁.autoSave player map genId₂ t₂ = some (none, c₁)) ∧
        (∀ (genId₃ : String) (t₃ : Int), c.autoSaveInterval ≤ t₃ - now →
          ∃ m₃ c₃, c₁.autoSave player map genId₃ t₃ = some (some m₃, c₃) ∧
            m₃.metadata.saveName = "Auto Save")) := by
  constructor
  · intro hlt
    unfold GameCaretaker.autoSave
    rw [if_pos hlt]
  · intro hge
    obtain ⟨m, c₁, hrun, hname, hid, hts, hc₁⟩ :=
      autoSave_fires c st player map genId now h hge
    have hfields := cleanupOldSaves_fields
      { c with lastAutoSave := now, mementos := mapSet c.mementos m.id m }
    have hlast : c₁.lastAutoSave = now := by rw [hc₁]; exact hfields.2.2.2
    have hint : c₁.autoSaveInterval = c.autoSaveInterval := by
      rw [hc₁]; exact hfields.2.2.1
    have horig : c₁.originator.currentState = some st := by
      rw [hc₁, hfields.1]; exact h
    refine ⟨m, c₁, hrun, hname, hid, hts, hlast, hc₁, ?_, ?_⟩
    · intro genId₂ t₂ ht₂
      unfold GameCaretaker.autoSave
      rw [if_pos (by rw [hlast, hint]; exact ht₂)]
    · intro genId₃ t₃ ht₃
      obtain ⟨m₃, c₃, hrun₃, hname₃, -, -, -⟩ :=
        autoSave_fires c₁ st player map genId₃ t₃ horig
          (by rw [hlast, hint]; exact ht₃)
      exact ⟨m₃, c₃, hrun₃, hname₃⟩

/-- C4 (witness): a fresh caretaker (clock at 0, 5-minute interval) skips an
auto-save requested at t = 100 ms. -/
theorem autoSave_throttling_witness :
    sampleCaretaker.autoSave samplePlayer sampleMap "auto_1" 100 =
      some (none, sampleCaretaker) :=
  (autoSave_throttling sampleCaretaker default samplePlayer sampleMap "auto_1" 100 rfl).1
    (by decide)

/-- Setting a fresh key appends the binding at the end of the map. -/
theorem mapSet_append {α : Type} (m : List (String × α)) (k : String) (v : α)
    (h : k ∉ mapKeys m) : mapSet m k v = m ++ [(k, v)] := by
  induction m with
  | nil => rfl
  | cons e rest ih =>
      obtain ⟨k₁, v₁⟩ := e
      have hk₁ : ¬(k₁ = k) := by
        intro heq
        exact h (by rw [heq] at *; exact List.mem_cons_self k (mapKeys rest))
      rw [mapSet, if_neg hk₁, List.cons_append, ih (fun hmem => h (List.mem_cons_of_mem k₁ hmem))]

/-- Deleting, in order, the keys of the first `j` entries of a map from that
same map leaves exactly the entries after position `j`. -/
theorem foldl_mapDelete_take {α : Type} :
    ∀ (l : List (String × α)) (j : Nat),
      (l.take j).foldl (fun ms e => mapDelete ms e.1) l = l.drop j := by
  intro l
  induction l with
  | nil => intro j; rw [List.take_nil, List.foldl_nil, List.drop_nil]
  | cons e rest ih =>
      intro j
      cases j with
      | zero => rfl
      | succ n =>
          obtain ⟨k, v⟩ := e
          rw [List.take_succ_cons, List.foldl_cons, List.drop_succ_cons]
          have hdel : mapDelete ((k, v) :: rest) (k, v).1 = rest := by
            rw [mapDelete, if_pos rfl]
          rw [hdel]
          exact ih n

/-- On a timestamp-sorted save map, `cleanupOldSaves` removes exactly the
leading `count - maxSaves` entries. -/
theorem cleanupOldSaves_sorted (c : GameCaretaker) (h : List.Sorted saveOrder c.mementos) :
    c.cleanupOldSaves =
      { c with mementos := c.mementos.drop (c.mementos.length - c.maxSaves) } := by
  unfold GameCaretaker.cleanupOldSaves
  split_ifs with hle
  · rw [Nat.sub_eq_zero_of_le hle, List.drop_zero]
  · dsimp only
    rw [List.Sorted.insertionSort_eq h, foldl_mapDelete_take]

/-- With a state held, `saveGame` stores one freshly stamped memento under
the generated id and prunes. -/
theorem saveGame_eq (c : GameCaretaker) (st : GameState) (player : Player) (map : GameMap)
    (genId : String) (now : Int) (h : c.originator.currentState = some st) :
    ∃ m, c.saveGame "save" player map genId now =
        some (m, GameCaretaker.cleanupOldSaves { c with mementos := mapSet c.mementos m.id m }) ∧
      m.id = genId ∧ m.timestamp = now := by
  unfold GameCaretaker.saveGame GameOriginator.createMemento
  rw [h]
  exact ⟨_, rfl, rfl, rfl⟩

/-- Running a batch of saves with fresh ids and strictly increasing
timestamps over a caretaker already within its limit keeps exactly the last
`maxSaves` entries of the combined history. -/
theorem runSaves_characterization :
    ∀ (saves : List (String × Int)) (c : GameCaretaker) (st : GameState)
      (player : Player) (map : GameMap),
      c.originator.currentState = some st →
      (mapKeys c.mementos ++ saves.map Prod.fst).Nodup →
      List.Pairwise (· < ·)
        ((c.mementos.map (fun e => e.2.timestamp)) ++ saves.map Prod.snd) →
      c.mementos.length ≤ c.maxSaves →
      keyTimestamps (runSaves c player map saves) =
        (keyTimestamps c ++ saves).drop (c.mementos.length + saves.length - c.maxSaves) ∧
      (runSaves c player map saves).maxSaves = c.maxSaves := by
  intro saves
  induction saves with
  | nil =>
      intro c st player map _ _ _ hlen
      refine ⟨?_, rfl⟩
      have h0 : c.mementos.length + ([] : List (String × Int)).length - c.maxSaves = 0 := by
        simp only [List.length_nil]
        omega
      rw [h0, List.drop_zero, List.append_nil]
      rfl
  | cons s rest ih =>
      intro c st player map h hnodup hpair hlen
      obtain ⟨gid, t⟩ := s
      obtain ⟨m, hsg, hmid, hmts⟩ := saveGame_eq c st player map gid t h
      have hstep : runSaves c player map ((gid, t) :: rest) =
          runSaves (GameCaretaker.cleanupOldSaves
            { c with mementos := mapSet c.mementos m.id m }) player map rest := by
        unfold runSaves
        rw [List.foldl_cons]
        dsimp only
        rw [hsg]
      set c₁ := GameCaretaker.cleanupOldSaves { c with mementos := mapSet c.mementos m.id m }
        with hc₁def
      -- the fresh id is not already a key
      have hgidfresh : gid ∉ mapKeys c.mementos := by
        rw [List.nodup_append] at hnodup
        intro hmem
        exact hnodup.2.2 hmem (by
          simp only [List.map_cons]
          exact List.mem_cons_self gid (rest.map Prod.fst))
      have hset : mapSet c.mementos m.id m = c.mementos ++ [(m.id, m)] := by
        rw [hmid]
        exact mapSet_append c.mementos gid m hgidfresh
      -- pairwise facts on the existing map and the new entry
      rw [List.pairwise_append] at hpair
      obtain ⟨hpairc, hpairrest, hcross⟩ := hpair
      have hsorted : List.Sorted saveOrder (c.mementos ++ [(m.id, m)]) := by
        rw [List.Sorted, List.pairwise_append]
        refine ⟨?_, List.pairwise_singleton _ _, ?_⟩
        · rw [List.pairwise_map] at hpairc
          exact hpairc.imp (fun hlt => le_of_lt hlt)
        · intro a ha b hb
          rw [List.mem_singleton] at hb
          subst hb
          have hts : a.2.timestamp < t := hcross a.2.timestamp
            (List.mem_map_of_mem (fun e => e.2.timestamp) ha)
            t (by simp only [List.map_cons]; exact List.mem_cons_self t (rest.map Prod.snd))
          rw [saveOrder, hmts]
          exact le_of_lt hts
      have hc₁mem : c₁.mementos =
          (c.mementos ++ [(m.id, m)]).drop (c.mementos.length + 1 - c.maxSaves) := by
        rw [hc₁def, hset]
        rw [cleanupOldSaves_sorted _ (by exact hsorted)]
        simp only [List.length_append, List.length_singleton]
      have hc₁fields := cleanupOldSaves_fields { c with mementos := mapSet c.mementos m.id m }
      have hc₁max : c₁.maxSaves = c.maxSaves := hc₁fields.2.1
      have hc₁orig : c₁.originator.currentState = some st := by
        rw [hc₁def, hc₁fields.1]
        exact h
      -- shorthand lengths
      have hjle : c.mementos.length + 1 - c.maxSaves ≤ (c.mementos.length + 1) := by omega
      have hlen₁ : c₁.mementos.length =
          (c.mementos.length + 1) - (c.mementos.length + 1 - c.maxSaves) := by
        rw [hc₁mem, List.length_drop, List.length_append, List.length_singleton]
      -- nodup hypothesis for the tail
      have hkeys₁ : mapKeys c₁.mementos =
          (mapKeys c.mementos ++ [gid]).drop (c.mementos.length + 1 - c.maxSaves) := by
        rw [hc₁mem, mapKeys, List.map_drop, List.map_append]
        rw [mapKeys]
        simp only [List.map_cons, List.map_nil, hmid]
      have hnodup₁ : (mapKeys c₁.mementos ++ rest.map Prod.fst).Nodup := by
        rw [hkeys₁]
        have hbig : ((mapKeys c.mementos ++ [gid]) ++ rest.map Prod.fst).Nodup := by
          have hsplit : (mapKeys c.mementos ++ [gid]) ++ rest.map Prod.fst =
              mapKeys c.mementos ++ gid :: rest.map Prod.fst := by
            rw [List.append_assoc, List.singleton_append]
          rw [hsplit]
          simpa only [List.map_cons] using hnodup
        exact List.Nodup.sublist
          (List.Sublist.append_right (List.drop_sublist _ _) _) hbig
      -- pairwise hypothesis for the tail
      have hts₁ : c₁.mementos.map (fun e => e.2.timestamp) =
          ((c.mementos.map (fun e => e.2.timestamp)) ++ [t]).drop
            (c.mementos.length + 1 - c.maxSaves) := by
        rw [hc₁mem, List.map_drop, List.map_append]
        simp only [List.map_cons, List.map_nil, hmts]
      have hpair₁ : List.Pairwise (· < ·)
          ((c₁.mementos.map (fun e => e.2.timestamp)) ++ rest.map Prod.snd) := by
        rw [hts₁]
        have hbig : List.Pairwise (· < ·)
            (((c.mementos.map (fun e => e.2.timestamp)) ++ [t]) ++ rest.map Prod.snd) := by
          have hsplit : ((c.mementos.map (fun e => e.2.timestamp)) ++ [t]) ++ rest.map Prod.snd =
              (c.mementos.map (fun e => e.2.timestamp)) ++ t :: rest.map Prod.snd := by
            rw [List.append_assoc, List.singleton_append]
          rw [hsplit, List.pairwise_append]
          refine ⟨hpairc, ?_, ?_⟩
          · simpa only [List.map_cons] using hpairrest
          · intro a ha b hb
            exact hcross a ha b (by simpa only [List.map_cons] using hb)
        exact List.Pairwise.sublist
          (List.Sublist.append_right (List.drop_sublist _ _) _) hbig
      have hlenle₁ : c₁.mementos.length ≤ c₁.maxSaves := by
        rw [hc₁max]
        omega
      obtain ⟨ihkey, ihmax⟩ := ih c₁ st player map hc₁orig hnodup₁ hpair₁ hlenle₁
      constructor
      · rw [hstep, ihkey]
        have hkeyts₁ : keyTimestamps c₁ =
            (keyTimestamps c ++ [(gid, t)]).drop (c.mementos.length + 1 - c.maxSaves) := by
          rw [keyTimestamps, hc₁mem, List.map_drop, List.map_append]
          rw [keyTimestamps]
          simp only [List.map_cons, List.map_nil, hmid, hmts]
        rw [hkeyts₁]
        have hlenA : (keyTimestamps c ++ [(gid, t)]).length = c.mementos.length + 1 := by
          rw [List.length_append, List.length_singleton, keyTimestamps, List.length_map]
        rw [← List.drop_append_of_le_length (by rw [hlenA]; omega)]
        rw [List.drop_drop]
        have hsplit : keyTimestamps c ++ [(gid, t)] ++ rest =
            keyTimestamps c ++ (gid, t) :: rest := by
          rw [List.append_assoc, List.singleton_append]
        rw [hsplit]
        congr 1
        rw [hc₁max, hlen₁]
        simp only [List.length_cons]
        omega
      · rw [hstep, ihmax, hc₁max]

/-- C2: starting from an empty caretaker whose originator holds a state,
saving `maxSaves + k` mementos (k > 0) with fresh ids and strictly increasing
timestamps evicts exactly the k oldest-timestamp entries: the surviving map
holds precisely the last `maxSaves` saves in order, and `getSaveCount()`
equals `maxSaves`. -/
theorem caretaker_eviction (c : GameCaretaker) (st : GameState) (player : Player)
    (map : GameMap) (k : Nat) (saves : List (String × Int))
    (hc : c.mementos = []) (h : c.originator.currentState = some st)
    (hnodup : (saves.map Prod.fst).Nodup)
    (hpair : List.Pairwise (· < ·) (saves.map Prod.snd))
    (hlen : saves.length = c.maxSaves + k) (hk : 0 < k) :
    keyTimestamps (runSaves c player map saves) = saves.drop k ∧
    (runSaves c player map saves).getSaveCount = c.maxSaves := by
  have hkeysnil : mapKeys c.mementos = [] := by rw [hc]; rfl
  have htsnil : c.mementos.map (fun e => e.2.timestamp) = [] := by rw [hc]; rfl
  have hkeyTsnil : keyTimestamps c = [] := by rw [keyTimestamps, hc]; rfl
  have hlennil : c.mementos.length = 0 := by rw [hc]; rfl
  obtain ⟨hkey, -⟩ := runSaves_characterization saves c st player map h
    (by rw [hkeysnil, List.nil_append]; exact hnodup)
    (by rw [htsnil, List.nil_append]; exact hpair)
    (by rw [hlennil]; exact Nat.zero_le _)
  rw [hkeyTsnil, List.nil_append, hlennil] at hkey
  have harith : 0 + saves.length - c.maxSaves = k := by omega
  rw [harith] at hkey
  refine ⟨hkey, ?_⟩
  have hcount : (runSaves c player map saves).getSaveCount =
      (keyTimestamps (runSaves c player map saves)).length := by
    rw [GameCaretaker.getSaveCount, mapSize, keyTimestamps, List.length_map]
  rw [hcount, hkey, List.length_drop]
  omega

/-- C2 (witness): with `maxSaves = 2`, saving three mementos at timestamps
1, 2, 3 leaves exactly the two newest and a save count of 2. -/
theorem caretaker_eviction_witness :
    keyTimestamps (runSaves { sampleCaretaker with maxSaves := 2 } samplePlayer sampleMap
        [("a", 1), ("b", 2), ("c", 3)]) = [("a", 1), ("b", 2), ("c", 3)].drop 1 ∧
    (runSaves { sampleCaretaker with maxSaves := 2 } samplePlayer sampleMap
        [("a", 1), ("b", 2), ("c", 3)]).getSaveCount = 2 :=
  caretaker_eviction { sampleCaretaker with maxSaves := 2 } default samplePlayer sampleMap
    1 [("a", 1), ("b", 2), ("c", 3)] rfl rfl (by decide) (by decide) rfl (by decide)

end IsoRPG
